import Mathlib

/-!
# Wikia/x : verification development

Shallow embedding of the four helper packages of the repository

* `prometheusx/metrics.go` (namespace `prometheusx`)
* `otelx/jaeger.go`        (namespace `otelx`)
* `flagx/flagx.go`         (namespace `flagx`)
* `tracing/config.go`      (namespace `tracing`)

Go code with side effects is embedded by explicit state passing.  A Go panic
is the `Except.error` result.  Functions of third-party libraries
(`prometheus.Register`, the `promhttp` decorators, `net.SplitHostPort`,
`jaeger.New`, the `pflag` getters) are parameters of the embedded functions.
-/

namespace prometheusx

/-! ## Data model of `prometheusx/metrics.go` -/

/-- Go `map[string]string` literal (`prometheus.Labels`): label name and value,
listed in the order of the literal.  The keys of a literal are distinct. -/
abbrev Labels := List (String × String)

/-- A Go `string` that comes from outside the program: any sequence of bytes,
valid UTF-8 or not. -/
structure GoString where
  bytes : List (Fin 256)
deriving DecidableEq, Repr

/-- UTF-8 encoding of one character. -/
def utf8EncodeChar (c : Char) : List (Fin 256) :=
  let n := c.toNat
  if n < 0x80 then [Fin.ofNat n]
  else if n < 0x800 then [Fin.ofNat (0xC0 + n / 0x40), Fin.ofNat (0x80 + n % 0x40)]
  else if n < 0x10000 then
    [Fin.ofNat (0xE0 + n / 0x1000), Fin.ofNat (0x80 + n / 0x40 % 0x40),
      Fin.ofNat (0x80 + n % 0x40)]
  else
    [Fin.ofNat (0xF0 + n / 0x40000), Fin.ofNat (0x80 + n / 0x1000 % 0x40),
      Fin.ofNat (0x80 + n / 0x40 % 0x40), Fin.ofNat (0x80 + n % 0x40)]

/-- The Go string of a text: its UTF-8 encoding. -/
def GoString.ofString (s : String) : GoString :=
  ⟨s.toList.foldr (fun c acc => utf8EncodeChar c ++ acc) []⟩

instance : Coe String GoString := ⟨GoString.ofString⟩

/-- One step of the scan of `utf8.ValidString`.  The state is the number of
continuation bytes still due and the range allowed for the next of them;
`none` is a rejected string. -/
def utf8Step (st : Option (Nat × Nat × Nat)) (b : Fin 256) : Option (Nat × Nat × Nat) :=
  match st with
  | none => none
  | some (0, _, _) =>
    if b.val < 0x80 then some (0, 0x80, 0xBF)
    else if 0xC2 ≤ b.val ∧ b.val ≤ 0xDF then some (1, 0x80, 0xBF)
    else if b.val = 0xE0 then some (2, 0xA0, 0xBF)
    else if b.val = 0xED then some (2, 0x80, 0x9F)
    else if 0xE1 ≤ b.val ∧ b.val ≤ 0xEF then some (2, 0x80, 0xBF)
    else if b.val = 0xF0 then some (3, 0x90, 0xBF)
    else if 0xF1 ≤ b.val ∧ b.val ≤ 0xF3 then some (3, 0x80, 0xBF)
    else if b.val = 0xF4 then some (3, 0x80, 0x8F)
    else none
  | some (n + 1, lo, hi) =>
    if lo ≤ b.val ∧ b.val ≤ hi then some (n, 0x80, 0xBF) else none

/-- Go `utf8.ValidString`. -/
def GoString.ValidString (s : GoString) : Bool :=
  match s.bytes.foldl utf8Step (some (0, 0x80, 0xBF)) with
  | some (0, _, _) => true
  | _ => false

/-- A `prometheus.Labels` handed to `With`: label name and value.  The values
are Go strings (`r.Method` is one). -/
abbrev LabelValues := List (String × GoString)

inductive VecKind where
  | counter
  | histogram
deriving DecidableEq, Repr

/-- A `*prometheus.CounterVec` or `*prometheus.HistogramVec`: the pointer and
the options the vector was built from. -/
structure MetricVec where
  ptr : Nat
  kind : VecKind
  Name : String
  Help : String
  ConstLabels : Labels
  labelNames : List String
deriving DecidableEq, Repr

abbrev CounterVec := MetricVec

abbrev HistogramVec := MetricVec

/-- The struct `Metrics` of the source (behind the pointer `ptr`). -/
structure Metrics where
  ptr : Nat
  responseTime : HistogramVec
  totalRequests : CounterVec
  duration : HistogramVec
  responseSize : HistogramVec
  requestSize : HistogramVec
  handlerStatuses : CounterVec
deriving DecidableEq, Repr

/-- A `prometheus.Collector` seen by a registry: its pointer and the vectors
its `Describe` and `Collect` forward to. -/
structure Collector where
  ptr : Nat
  vecs : List MetricVec
deriving DecidableEq, Repr

/-- Go `error` values met by `NewMetrics`; `wrapped` is an error whose
`Unwrap` gives `inner`. -/
inductive Error where
  | AlreadyRegisteredError (ExistingCollector NewCollector : Collector)
  | other (msg : String)
  | wrapped (msg : String) (inner : Error)
deriving DecidableEq, Repr

/-- One `Inc` or `Observe` on a child of a vector. -/
structure Sample where
  vec : Nat
  labelValues : List GoString
  value : Nat
deriving DecidableEq, Repr

/-- Process state touched by the package. -/
structure World where
  /-- next free heap address -/
  nextPtr : Nat
  /-- collectors of `prometheus.DefaultRegisterer` -/
  registry : List Collector
  /-- every sample recorded so far, oldest first -/
  samples : List Sample
  /-- status code held by each response writer (absent: nothing written, 0) -/
  status : List (Nat × Int)
  /-- bytes of body written through each response writer -/
  written : List (Nat × Nat)
  /-- number of runs of application handlers so far -/
  hits : Nat
deriving DecidableEq, Repr

/-- An `http.ResponseWriter` interface value: the underlying writer and whether
its dynamic type implements `negroni.ResponseWriter`. -/
structure ResponseWriter where
  id : Nat
  implementsNegroni : Bool
deriving DecidableEq, Repr

/-- The fields of an `*http.Request` the package and `promhttp` read; `URL` is
`r.URL.String()`, and a `ContentLength` of -1 is an unknown length. -/
structure Request where
  Method : GoString
  URL : String
  Proto : String
  Header : List (String × List String)
  Host : String
  ContentLength : Int
deriving DecidableEq, Repr

/-- An `http.Handler`: `ServeHTTP` either returns or panics.  Of a panic only
the message is kept. -/
abbrev Handler := ResponseWriter → Request → World → Except String World

/-- `res.Status()` of a `negroni.ResponseWriter`. -/
def ResponseWriter.Status (rw : ResponseWriter) (w : World) : Int :=
  (w.status.lookup rw.id).getD 0

/-- A child metric of a vector: the vector and the values of its labels. -/
structure Child where
  vec : Nat
  labelValues : List GoString
deriving DecidableEq, Repr

/-- `(*CounterVec).With(labels)`: panics unless `labels` has as many entries as
the vector has variable labels, every value is valid UTF-8, and every variable
label of the vector has a value. -/
def MetricVec.With (v : MetricVec) (labels : LabelValues) : Except String Child :=
  if labels.length ≠ v.labelNames.length then
    .error "inconsistent label cardinality"
  else if labels.any (fun l => !l.2.ValidString) then
    .error "label value is not valid UTF-8"
  else if v.labelNames.all (fun n => (labels.lookup n).isSome) then
    .ok ⟨v.ptr, v.labelNames.map (fun n => (labels.lookup n).getD ⟨[]⟩)⟩
  else .error "label name missing in label map"

def World.record (w : World) (s : Sample) : World :=
  { w with samples := w.samples ++ [s] }

/-- `Counter.Inc()`. -/
def Child.Inc (c : Child) (w : World) : World :=
  w.record ⟨c.vec, c.labelValues, 1⟩

/-- Value of the counter child of vector `vec` with the given label values. -/
def World.counter (w : World) (vec : Nat) (labelValues : List GoString) : Nat :=
  (w.samples.filter (fun s => s.vec = vec ∧ s.labelValues = labelValues)).length

/-- The `switch` of `instrumentHandlerStatusBucket` (source lines 104-114). -/
def statusBucket (status : Int) : String :=
  if status ≥ 200 ∧ status ≤ 299 then "2xx"
  else if status ≥ 300 ∧ status ≤ 399 then "3xx"
  else if status ≥ 400 ∧ status ≤ 499 then "4xx"
  else if status ≥ 500 ∧ status ≤ 599 then "5xx"
  else "unknown"

/-- `Metrics.instrumentHandlerStatusBucket` (source lines 95-119). -/
def Metrics.instrumentHandlerStatusBucket (h : Metrics) (next : Handler) : Handler :=
  fun rw r w =>
    match next rw r w with
    | .error p => .error p
    | .ok w1 =>
      if !rw.implementsNegroni then .ok w1
      else
        match h.handlerStatuses.With
            [("method", r.Method), ("status_bucket", statusBucket (rw.Status w1))] with
        | .error p => .error p
        | .ok c => .ok (c.Inc w1)

/-- `errors.As(err, new(prometheus.AlreadyRegisteredError))` on a non-nil error. -/
def Error.As : Error → Bool
  | .AlreadyRegisteredError _ _ => true
  | .other _ => false
  | .wrapped _ inner => inner.As

/-- `Metrics.Describe` / `Metrics.Collect` (source lines 76-93): the collector
forwards to the six vectors in this order. -/
def Metrics.toCollector (h : Metrics) : Collector :=
  ⟨h.ptr, [h.duration, h.totalRequests, h.requestSize, h.responseSize,
    h.handlerStatuses, h.responseTime]⟩

/-- `NewMetrics` (source lines 23-73).  `Register` is `prometheus.Register`.
The result `.error e` is `panic(err)`. -/
def NewMetrics (Register : Collector → World → Option Error × World)
    (app version hash date : String) (w : World) : Except Error (Metrics × World) :=
  let labels : Labels := [("version", version), ("hash", hash), ("buildTime", date)]
  let p := w.nextPtr
  let pm : Metrics :=
    { responseTime :=
        ⟨p, .histogram, app ++ "_response_time_seconds", "Description", labels, ["endpoint"]⟩
      totalRequests :=
        ⟨p + 1, .counter, app ++ "_requests_total", "number of requests", labels,
          ["code", "method"]⟩
      duration :=
        ⟨p + 2, .histogram, app ++ "_duration_seconds", "duration of a requests in seconds",
          labels, ["code", "method"]⟩
      responseSize :=
        ⟨p + 3, .histogram, app ++ "_response_size_bytes", "size of the responses in bytes",
          labels, ["code", "method"]⟩
      requestSize :=
        ⟨p + 4, .histogram, app ++ "_request_size_bytes", "size of the requests in bytes",
          labels, ["code", "method"]⟩
      handlerStatuses :=
        ⟨p + 5, .counter, app ++ "_statuses_total", "count number of responses per status",
          labels, ["method", "status_bucket"]⟩
      ptr := p + 6 }
  match Register pm.toCollector { w with nextPtr := p + 7 } with
  | (some err, w2) => if err.As then .ok (pm, w2) else .error err
  | (none, w2) => .ok (pm, w2)

/-- The struct literal of `NewMetrics` with its first vector allocated at `p`. -/
def handleAt (p : Nat) (app version hash date : String) : Metrics :=
  let labels : Labels := [("version", version), ("hash", hash), ("buildTime", date)]
  { responseTime :=
      ⟨p, .histogram, app ++ "_response_time_seconds", "Description", labels, ["endpoint"]⟩
    totalRequests :=
      ⟨p + 1, .counter, app ++ "_requests_total", "number of requests", labels,
        ["code", "method"]⟩
    duration :=
      ⟨p + 2, .histogram, app ++ "_duration_seconds", "duration of a requests in seconds",
        labels, ["code", "method"]⟩
    responseSize :=
      ⟨p + 3, .histogram, app ++ "_response_size_bytes", "size of the responses in bytes",
        labels, ["code", "method"]⟩
    requestSize :=
      ⟨p + 4, .histogram, app ++ "_request_size_bytes", "size of the requests in bytes",
        labels, ["code", "method"]⟩
    handlerStatuses :=
      ⟨p + 5, .counter, app ++ "_statuses_total", "count number of responses per status",
        labels, ["method", "status_bucket"]⟩
    ptr := p + 6 }

/-- A `*prometheus.Desc`: what a vector describes itself with. -/
structure Desc where
  fqName : String
  help : String
  constLabels : Labels
  variableLabels : List String
deriving DecidableEq, Repr

def MetricVec.desc (v : MetricVec) : Desc := ⟨v.Name, v.Help, v.ConstLabels, v.labelNames⟩

/-- Identity of a descriptor in a registry: fully-qualified name and the values
of the constant labels. -/
def Desc.id (d : Desc) : String × List String :=
  (d.fqName, d.constLabels.map (fun l => l.2))

/-- Two collectors have the same collector ID: the same set of descriptor IDs. -/
def sameID (a b : List (String × List String)) : Bool :=
  a.all (fun x => b.contains x) && b.all (fun x => a.contains x)

/-- The descriptor IDs a collector sends on `Describe`. -/
def Collector.ids (c : Collector) : List (String × List String) :=
  c.vecs.map (fun v => v.desc.id)

/-- Reference `prometheus.Register` on the default registry.  `valid` is the
library's check of a descriptor (syntax of its name and labels). -/
def defaultRegister (valid : Desc → Bool) (c : Collector) (w : World) :
    Option Error × World :=
  if c.vecs.any (fun v => !valid v.desc) then (some (.other "descriptor is invalid"), w)
  else
    match w.registry.find? (fun e => sameID e.ids c.ids) with
    | some existing => (some (.AlreadyRegisteredError existing c), w)
    | none =>
      if w.registry.any (fun e => e.ids.any (fun i => c.ids.contains i)) then
        (some (.other "descriptor already exists with the same name and const label values"), w)
      else (none, { w with registry := w.registry ++ [c] })

/-- The six vectors of a handle. -/
def Metrics.instruments (h : Metrics) : List MetricVec :=
  [h.responseTime, h.totalRequests, h.duration, h.responseSize, h.requestSize,
    h.handlerStatuses]

/-- Every object of the registry was allocated before `nextPtr`. -/
def World.allocated (w : World) : Prop :=
  ∀ c ∈ w.registry, c.ptr < w.nextPtr ∧ ∀ v ∈ c.vecs, v.ptr < w.nextPtr

/-- What a scrape of the registry sees: the samples of registered vectors. -/
def World.gathered (w : World) : List Sample :=
  w.samples.filter (fun s => w.registry.any (fun c => c.vecs.any (fun v => v.ptr = s.vec)))

/-- A process that has not allocated, registered or served anything. -/
def World.init : World := ⟨0, [], [], [], [], 0⟩

/-- A request `GET / HTTP/1.1` to example.com with a 3-byte body. -/
def getRoot : Request := ⟨"GET", "/", "HTTP/1.1", [], "example.com", 3⟩

/-- An application handler: answers 404 with a 10-byte body. -/
def notFound : Handler := fun rw _ w =>
  .ok { w with status := (rw.id, 404) :: w.status, written := (rw.id, 10) :: w.written,
               hits := w.hits + 1 }

end prometheusx

namespace otelx

/-! ## Data model of `otelx/jaeger.go` -/

/-- A Go `error`, by its message. -/
abbrev Error := String

/-- Sampling settings read by `SetupJaeger` (`c.Providers.Jaeger.Sampling`).
The ratio is only handed on to the sampler, never computed with. -/
structure JaegerSampling where
  ServerURL : String
  TraceIdRatio : ℚ
deriving DecidableEq

structure JaegerConfig where
  LocalAgentAddress : String
  Sampling : JaegerSampling
deriving DecidableEq

structure ProvidersConfig where
  Jaeger : JaegerConfig
deriving DecidableEq

structure Config where
  ServiceName : String
  Providers : ProvidersConfig
deriving DecidableEq

structure Tracer where
  Config : Config
deriving DecidableEq

/-- The exporter built by `jaeger.New(jaeger.WithAgentEndpoint(...))`. -/
structure Exporter where
  agentHost : String
  agentPort : String
deriving DecidableEq

/-- Samplers built by `SetupJaeger`, as the tree of constructor calls. -/
inductive Sampler where
  | TraceIDRatioBased (fraction : ℚ)
  | jaegerremote (serviceName samplingServerURL : String) (initialSampler : Sampler)
  | ParentBased (root : Sampler)
deriving DecidableEq

structure Resource where
  schemaURL : String
  serviceName : String
deriving DecidableEq

/-- An `sdktrace.TracerProvider`, by the options it was built with. -/
structure TracerProvider where
  batcher : Exporter
  resource : Resource
  sampler : Sampler
deriving DecidableEq

inductive Propagator where
  | Jaeger
  | B3 (multipleHeader singleHeader : Bool)
  | TraceContext
  | Baggage
deriving DecidableEq

/-- Process-wide state of the `otel` package, and the sampling servers polled
by the remote samplers built so far. -/
structure Globals where
  tracerProvider : Option TracerProvider
  textMapPropagator : Option (List Propagator)
  remoteSamplers : List String
deriving DecidableEq

/-- A `trace.Tracer` obtained from a provider. -/
structure TracerHandle where
  provider : TracerProvider
  name : String
deriving DecidableEq

/-- Library functions whose result depends on the environment. -/
structure Lib where
  SplitHostPort : String → Except Error (String × String)
  jaegerNew : String → String → Except Error Exporter

/-- `semconv.SchemaURL` of `semconv/v1.7.0`. -/
def SchemaURL : String := "https://opentelemetry.io/schemas/1.7.0"

/-- `SetupJaeger` (source lines 27-84).  The first component is the pair
`(trace.Tracer, error)`: `.error err` is `(nil, err)`. -/
def SetupJaeger (lib : Lib) (t : Tracer) (tracerName : String) (g : Globals) :
    Except Error TracerHandle × Globals :=
  let c := t.Config
  match lib.SplitHostPort c.Providers.Jaeger.LocalAgentAddress with
  | .error err => (.error err, g)
  | .ok (host, port) =>
    match lib.jaegerNew host port with
    | .error err => (.error err, g)
    | .ok exp =>
      let samplingServerURL := c.Providers.Jaeger.Sampling.ServerURL
      let traceIdRatio := c.Providers.Jaeger.Sampling.TraceIdRatio
      let sampler := Sampler.TraceIDRatioBased traceIdRatio
      let (sampler, g) :=
        if samplingServerURL ≠ "" then
          (Sampler.jaegerremote "jaegerremote" samplingServerURL sampler,
            { g with remoteSamplers := g.remoteSamplers ++ [samplingServerURL] })
        else (sampler, g)
      let sampler := Sampler.ParentBased sampler
      let tp : TracerProvider := ⟨exp, ⟨SchemaURL, t.Config.ServiceName⟩, sampler⟩
      let g := { g with tracerProvider := some tp }
      let prop := [Propagator.Jaeger, Propagator.B3 true true, Propagator.TraceContext,
        Propagator.Baggage]
      let g := { g with textMapPropagator := some prop }
      (.ok ⟨tp, tracerName⟩, g)

/-! ### A reference implementation of the library functions -/

/-- Index of the last `c` in `cs`. -/
def lastIndex (cs : List Char) (c : Char) : Option Nat :=
  let n := cs.reverse.indexOf c
  if n < cs.length then some (cs.length - 1 - n) else none

def addrErr (addr why : String) : Except Error (String × String) :=
  .error ("address " ++ addr ++ ": " ++ why)

/-- Reference `net.SplitHostPort` of the Go standard library. -/
def netSplitHostPort (hostport : String) : Except Error (String × String) :=
  let cs := hostport.toList
  match lastIndex cs ':' with
  | none => addrErr hostport "missing port in address"
  | some i =>
    let tail (host : List Char) (j k : Nat) : Except Error (String × String) :=
      if (cs.drop j).contains '[' then addrErr hostport "unexpected '[' in address"
      else if (cs.drop k).contains ']' then addrErr hostport "unexpected ']' in address"
      else .ok (String.mk host, String.mk (cs.drop (i + 1)))
    if cs.head? = some '[' then
      let e := cs.indexOf ']'
      if e = cs.length then addrErr hostport "missing ']' in address"
      else if e + 1 = cs.length then addrErr hostport "missing port in address"
      else if e + 1 = i then tail ((cs.take e).drop 1) 1 (e + 1)
      else if cs.get? (e + 1) = some ':' then addrErr hostport "too many colons in address"
      else addrErr hostport "missing port in address"
    else
      let host := cs.take i
      if host.contains ':' then addrErr hostport "too many colons in address"
      else tail host 0 0

/-- Reference library: the exporter is built for every host and port. -/
def libRef : Lib where
  SplitHostPort := netSplitHostPort
  jaegerNew := fun host port => .ok ⟨host, port⟩

/-- The `otel` globals of a process that has installed nothing. -/
def Globals.init : Globals := ⟨none, none, []⟩

end otelx

namespace flagx

/-! ## Data model of `flagx/flagx.go` -/

/-- A Go `error`, by `err.Error()`. -/
abbrev Error := String

/-- The typed getters of a `*pflag.FlagSet`; each returns the pair
`(value, error)` of the Go getter. -/
structure FlagSet where
  GetBool : String → Bool × Option Error
  GetString : String → String × Option Error
  GetDuration : String → Int × Option Error
  GetStringSlice : String → List String × Option Error
  GetInt : String → Int × Option Error
  GetUint8 : String → Fin 256 × Option Error
  GetUint32 : String → Fin 4294967296 × Option Error

/-- A `*cobra.Command`, by the flag set `cmd.Flags()` returns. -/
structure Command where
  Flags : FlagSet

/-- What the process has written to standard error, and the exit code once
it has ended. -/
structure Proc where
  stderr : List String
  exitCode : Option Nat
deriving DecidableEq, Repr

/-- Result of a call: it returns a value, or the process ends inside it. -/
inductive Outcome (α : Type) where
  | returned (v : α) (w : Proc)
  | exited (w : Proc)
deriving DecidableEq, Repr

/-- The type of `cmdx.Fatalf` applied to a message without arguments. -/
abbrev FatalHandler := String → Proc → Outcome Unit

/-- Modelled from the spec: `cmdx.Fatalf` of package `cmdx`, which is not
among the sources.  It "logs the error message and ends the process". -/
def Fatalf : FatalHandler := fun message w =>
  .exited { stderr := w.stderr ++ [message], exitCode := some 1 }

/-- `MustGetBool` (source lines 18-24). -/
def MustGetBool (fatalf : FatalHandler) (cmd : Command) (name : String) (w : Proc) :
    Outcome Bool :=
  match cmd.Flags.GetBool name with
  | (ok, some err) =>
    match fatalf err w with
    | .exited w1 => .exited w1
    | .returned _ w1 => .returned ok w1
  | (ok, none) => .returned ok w

/-- `MustGetString` (source lines 27-33). -/
def MustGetString (fatalf : FatalHandler) (cmd : Command) (name : String) (w : Proc) :
    Outcome String :=
  match cmd.Flags.GetString name with
  | (s, some err) =>
    match fatalf err w with
    | .exited w1 => .exited w1
    | .returned _ w1 => .returned s w1
  | (s, none) => .returned s w

/-- `MustGetDuration` (source lines 36-42). -/
def MustGetDuration (fatalf : FatalHandler) (cmd : Command) (name : String) (w : Proc) :
    Outcome Int :=
  match cmd.Flags.GetDuration name with
  | (d, some err) =>
    match fatalf err w with
    | .exited w1 => .exited w1
    | .returned _ w1 => .returned d w1
  | (d, none) => .returned d w

/-- `MustGetStringSlice` (source lines 45-51). -/
def MustGetStringSlice (fatalf : FatalHandler) (cmd : Command) (name : String) (w : Proc) :
    Outcome (List String) :=
  match cmd.Flags.GetStringSlice name with
  | (ss, some err) =>
    match fatalf err w with
    | .exited w1 => .exited w1
    | .returned _ w1 => .returned ss w1
  | (ss, none) => .returned ss w

/-- `MustGetInt` (source lines 54-60). -/
def MustGetInt (fatalf : FatalHandler) (cmd : Command) (name : String) (w : Proc) :
    Outcome Int :=
  match cmd.Flags.GetInt name with
  | (ss, some err) =>
    match fatalf err w with
    | .exited w1 => .exited w1
    | .returned _ w1 => .returned ss w1
  | (ss, none) => .returned ss w

/-- `MustGetUint8` (source lines 63-69). -/
def MustGetUint8 (fatalf : FatalHandler) (cmd : Command) (name : String) (w : Proc) :
    Outcome (Fin 256) :=
  match cmd.Flags.GetUint8 name with
  | (v, some err) =>
    match fatalf err w with
    | .exited w1 => .exited w1
    | .returned _ w1 => .returned v w1
  | (v, none) => .returned v w

/-- `MustGetUint32` (source lines 72-78). -/
def MustGetUint32 (fatalf : FatalHandler) (cmd : Command) (name : String) (w : Proc) :
    Outcome (Fin 4294967296) :=
  match cmd.Flags.GetUint32 name with
  | (v, some err) =>
    match fatalf err w with
    | .exited w1 => .exited w1
    | .returned _ w1 => .returned v w1
  | (v, none) => .returned v w

/-! ### A reference flag set -/

/-- A flag value with its `pflag` type. -/
inductive Value where
  | bool (v : Bool)
  | string (v : String)
  | duration (v : Int)
  | stringSlice (v : List String)
  | int (v : Int)
  | uint8 (v : Fin 256)
  | uint32 (v : Fin 4294967296)
deriving DecidableEq

def Value.typeName : Value → String
  | .bool _ => "bool"
  | .string _ => "string"
  | .duration _ => "duration"
  | .stringSlice _ => "stringSlice"
  | .int _ => "int"
  | .uint8 _ => "uint8"
  | .uint32 _ => "uint32"

/-- Reference `getFlagType` of `pflag`: the flag must be defined and of the
type asked for. -/
def getFlagType {α : Type} (flags : List (String × Value)) (name ftype : String) (zero : α)
    (conv : Value → Option α) : α × Option Error :=
  match flags.lookup name with
  | none => (zero, some ("flag accessed but not defined: " ++ name))
  | some v =>
    match conv v with
    | some a => (a, none)
    | none => (zero, some ("trying to get " ++ ftype ++ " value of flag of type " ++ v.typeName))

/-- Reference flag set over a list of defined flags. -/
def flagSetRef (flags : List (String × Value)) : FlagSet where
  GetBool n := getFlagType flags n "bool" false (fun v => match v with | .bool b => some b | _ => none)
  GetString n := getFlagType flags n "string" "" (fun v => match v with | .string b => some b | _ => none)
  GetDuration n := getFlagType flags n "duration" 0 (fun v => match v with | .duration b => some b | _ => none)
  GetStringSlice n := getFlagType flags n "stringSlice" [] (fun v => match v with | .stringSlice b => some b | _ => none)
  GetInt n := getFlagType flags n "int" 0 (fun v => match v with | .int b => some b | _ => none)
  GetUint8 n := getFlagType flags n "uint8" 0 (fun v => match v with | .uint8 b => some b | _ => none)
  GetUint32 n := getFlagType flags n "uint32" 0 (fun v => match v with | .uint32 b => some b | _ => none)

/-- A command with one bool flag and one string flag. -/
def cmdRef : Command := ⟨flagSetRef [("verbose", .bool true), ("name", .string "x")]⟩

end flagx

namespace tracing

/-! ## Data model of `tracing/config.go` -/

abbrev Bytes := List (Fin 256)

/-- An `embed.FS`: the files bundled at build time. -/
structure FS where
  files : List (String × Bytes)
deriving DecidableEq

/-- `embed.FS.ReadFile`. -/
def FS.ReadFile (fs : FS) (name : String) : Except String Bytes :=
  match fs.files.lookup name with
  | some b => .ok b
  | none => .error ("open " ++ name ++ ": file does not exist")

/-- `ConfigSchema` with its directive `//go:embed config.schema.json`; the
contents of the bundled file are the parameter `bundled`. -/
def ConfigSchema (bundled : Bytes) : FS := ⟨[("config.schema.json", bundled)]⟩

def ConfigSchemaID : String := "https://ory.sh/schemas/tracing.schema.json"

/-- The parameter of `AddConfigSchema`: anything with an `AddResource` method,
acting on its own state `σ`.  The reader is given by the bytes it yields. -/
structure Registrar (σ : Type) where
  AddResource : String → Bytes → σ → Option String × σ

/-- `AddConfigSchema` (source lines 46-54); `.error` is the panic. -/
def AddConfigSchema {σ : Type} (bundled : Bytes) (c : Registrar σ) (s : σ) :
    Except String (Option String × σ) :=
  match (ConfigSchema bundled).ReadFile "config.schema.json" with
  | .error err =>
    .error ("unrecoverable error: could not read file from embed.FS: " ++ err)
  | .ok schema => .ok (c.AddResource ConfigSchemaID schema s)

/-- A registrar that records every resource by URL and answers with `verdict`. -/
def recorder (verdict : String → Bytes → Option String) : Registrar (List (String × Bytes)) where
  AddResource url r s := (verdict url r, s ++ [(url, r)])

end tracing

/-! # Theorems -/

namespace prometheusx

/-! ## `prometheusx/metrics.go` -/

/-- Every handle `NewMetrics` returns is its struct literal, and the world it
returns is the one `Register` left. -/
theorem NewMetrics_ok {Register : Collector → World → Option Error × World}
    {app version hash date : String} {w w1 : World} {h : Metrics}
    (hnew : NewMetrics Register app version hash date w = .ok (h, w1)) :
    h = handleAt w.nextPtr app version hash date ∧
      w1 = (Register (handleAt w.nextPtr app version hash date).toCollector
              { w with nextPtr := w.nextPtr + 7 }).2 := by
  unfold NewMetrics at hnew
  simp only [] at hnew
  split at hnew
  · rename_i err w2 hreg
    split at hnew
    · simp only [Except.ok.injEq, Prod.mk.injEq] at hnew
      refine ⟨hnew.1.symm, ?_⟩
      rw [← hnew.2]
      exact (congrArg Prod.snd hreg).symm
    · exact absurd hnew (by simp)
  · rename_i w2 hreg
    simp only [Except.ok.injEq, Prod.mk.injEq] at hnew
    refine ⟨hnew.1.symm, ?_⟩
    rw [← hnew.2]
    exact (congrArg Prod.snd hreg).symm

/-- C2: when the writer is no `negroni.ResponseWriter`, the handler of
`instrumentHandlerStatusBucket` is exactly one run of the wrapped handler on
the same writer and request: it returns what that run returns (a panic only if
that run panics), so that every child of `handlerStatuses`, under every label
pair, keeps the value the wrapped handler left. -/
theorem status_bucket_skipped (h : Metrics) (next : Handler) (rw : ResponseWriter)
    (r : Request) (w : World) (hneg : rw.implementsNegroni = false) :
    h.instrumentHandlerStatusBucket next rw r w = next rw r w ∧
    (∀ w1, next rw r w = .ok w1 →
      ∃ w2, h.instrumentHandlerStatusBucket next rw r w = .ok w2 ∧ w2.samples = w1.samples ∧
        ∀ lv, w2.counter h.handlerStatuses.ptr lv = w1.counter h.handlerStatuses.ptr lv) := by
  have heq : h.instrumentHandlerStatusBucket next rw r w = next rw r w := by
    simp only [Metrics.instrumentHandlerStatusBucket, hneg]
    cases next rw r w <;> simp
  refine ⟨heq, ?_⟩
  intro w1 h1
  exact ⟨w1, by rw [heq, h1], rfl, fun _ => rfl⟩

/-- C2 at a concrete request through a plain writer: one run of the
application handler and no sample. -/
theorem status_bucket_skipped_witness :
    (handleAt 0 "app" "1" "abc" "today").instrumentHandlerStatusBucket notFound ⟨7, false⟩
        getRoot World.init = .ok ⟨0, [], [], [(7, 404)], [(7, 10)], 1⟩ :=
  (status_bucket_skipped (handleAt 0 "app" "1" "abc" "today") notFound ⟨7, false⟩ getRoot
    World.init rfl).1

/-! ### `Instrument` -/

theorem sameID_self (a : List (String × List String)) : sameID a a = true := by
  simp [sameID, List.all_eq_true]

theorem defaultRegister_again (valid : Desc → Bool) (c c2 : Collector) (w w1 w3 : World)
    (r : Option Error) (hids : c2.ids = c.ids)
    (hvalid : c2.vecs.any (fun v => !valid v.desc) = c.vecs.any (fun v => !valid v.desc))
    (hreg : defaultRegister valid c w = (r, w1))
    (hr : r = none ∨ ∃ e, r = some e ∧ e.As = true)
    (h3 : w3.registry = w1.registry) :
    ∃ ex, defaultRegister valid c2 w3 = (some (.AlreadyRegisteredError ex c2), w3) := by
  unfold defaultRegister at hreg ⊢
  rw [hvalid, hids, h3]
  split at hreg
  · simp only [Prod.mk.injEq] at hreg
    rcases hr with hr | ⟨e, he, hAs⟩
    · rw [hr] at hreg; exact absurd hreg.1 (by simp)
    · rw [he] at hreg
      have := hreg.1
      simp only [Option.some.injEq] at this
      rw [← this] at hAs
      simp [Error.As] at hAs
  · rename_i hval
    simp only [hval, Bool.false_eq_true, if_false]
    split at hreg
    · rename_i ex hfind
      simp only [Prod.mk.injEq] at hreg
      rw [← hreg.2, hfind]
      exact ⟨ex, rfl⟩
    · rename_i hfind
      split at hreg
      · simp only [Prod.mk.injEq] at hreg
        rcases hr with hr | ⟨e, he, hAs⟩
        · rw [hr] at hreg; exact absurd hreg.1 (by simp)
        · rw [he] at hreg
          have := hreg.1
          simp only [Option.some.injEq] at this
          rw [← this] at hAs
          simp [Error.As] at hAs
      · simp only [Prod.mk.injEq] at hreg
        rw [← hreg.2]
        simp only [List.find?_append, hfind, Option.none_or, List.find?_cons, sameID_self,
          List.find?_nil]
        exact ⟨c, rfl⟩

theorem NewMetrics_unfold (Register : Collector → World → Option Error × World)
    (app version hash date : String) (w : World) :
    NewMetrics Register app version hash date w =
      match Register (handleAt w.nextPtr app version hash date).toCollector
          { w with nextPtr := w.nextPtr + 7 } with
      | (some err, w2) =>
        if err.As then .ok (handleAt w.nextPtr app version hash date, w2) else .error err
      | (none, w2) => .ok (handleAt w.nextPtr app version hash date, w2) := rfl

/-- C4: write `pm` for the handle `NewMetrics` builds.  If registration returns
no error, or an error in which `errors.As` finds an `AlreadyRegisteredError`,
`NewMetrics` returns `pm`; if registration returns any other error `NewMetrics`
panics with it, and it panics in no other case.  With the reference registry,
a call that returned a handle is followed by a second call with the same
arguments that returns a handle too. -/
theorem new_metrics_outcome (Register : Collector → World → Option Error × World)
    (app version hash date : String) (w : World) :
    (∀ w2, Register (handleAt w.nextPtr app version hash date).toCollector
          { w with nextPtr := w.nextPtr + 7 } = (none, w2) →
      NewMetrics Register app version hash date w =
        .ok (handleAt w.nextPtr app version hash date, w2)) ∧
    (∀ e w2, Register (handleAt w.nextPtr app version hash date).toCollector
          { w with nextPtr := w.nextPtr + 7 } = (some e, w2) → e.As = true →
      NewMetrics Register app version hash date w =
        .ok (handleAt w.nextPtr app version hash date, w2)) ∧
    (∀ e w2, Register (handleAt w.nextPtr app version hash date).toCollector
          { w with nextPtr := w.nextPtr + 7 } = (some e, w2) → e.As = false →
      NewMetrics Register app version hash date w = .error e) ∧
    (∀ e, NewMetrics Register app version hash date w = .error e →
      ∃ w2, Register (handleAt w.nextPtr app version hash date).toCollector
          { w with nextPtr := w.nextPtr + 7 } = (some e, w2) ∧ e.As = false) ∧
    (∀ valid h1 w1, NewMetrics (defaultRegister valid) app version hash date w = .ok (h1, w1) →
      ∃ h2 w2, NewMetrics (defaultRegister valid) app version hash date w1 = .ok (h2, w2)) := by
  refine ⟨?_, ?_, ?_, ?_, ?_⟩
  · intro w2 hreg
    rw [NewMetrics_unfold, hreg]
  · intro e w2 hreg hAs
    rw [NewMetrics_unfold, hreg]
    simp [hAs]
  · intro e w2 hreg hAs
    rw [NewMetrics_unfold, hreg]
    simp [hAs]
  · intro e hpanic
    rw [NewMetrics_unfold] at hpanic
    split at hpanic
    · rename_i err w2 hreg
      split at hpanic
      · exact absurd hpanic (by simp)
      · rename_i hAs
        simp only [Except.error.injEq] at hpanic
        subst hpanic
        exact ⟨w2, hreg, by simpa using hAs⟩
    · exact absurd hpanic (by simp)
  · intro valid h1 w1 hfirst
    have hw1 := (NewMetrics_ok hfirst).2
    have hr : (defaultRegister valid (handleAt w.nextPtr app version hash date).toCollector
          { w with nextPtr := w.nextPtr + 7 }).1 = none ∨
        ∃ e, (defaultRegister valid (handleAt w.nextPtr app version hash date).toCollector
          { w with nextPtr := w.nextPtr + 7 }).1 = some e ∧ e.As = true := by
      rw [NewMetrics_unfold] at hfirst
      split at hfirst
      · rename_i err w2 hreg
        split at hfirst
        · rename_i hAs
          exact Or.inr ⟨err, by rw [hreg], hAs⟩
        · exact absurd hfirst (by simp)
      · rename_i w2 hreg
        exact Or.inl (by rw [hreg])
    obtain ⟨ex, hex⟩ := defaultRegister_again valid
      (handleAt w.nextPtr app version hash date).toCollector
      (handleAt w1.nextPtr app version hash date).toCollector
      { w with nextPtr := w.nextPtr + 7 } w1 { w1 with nextPtr := w1.nextPtr + 7 } _
      rfl rfl (by rw [hw1]) hr rfl
    refine ⟨handleAt w1.nextPtr app version hash date, { w1 with nextPtr := w1.nextPtr + 7 }, ?_⟩
    rw [NewMetrics_unfold, hex]
    simp [Error.As]

/-- C4 on a fresh process with the reference registry: the first call
registers and returns the handle. -/
theorem new_metrics_outcome_witness :
    NewMetrics (defaultRegister (fun _ => true)) "app" "1" "abc" "today" World.init =
      .ok (handleAt 0 "app" "1" "abc" "today",
        ⟨7, [(handleAt 0 "app" "1" "abc" "today").toCollector], [], [], [], 0⟩) :=
  (new_metrics_outcome (defaultRegister (fun _ => true)) "app" "1" "abc" "today" World.init).1
    _ rfl

theorem handleAt_instruments_fresh (p : Nat) (app version hash date : String) :
    ∀ v ∈ (handleAt p app version hash date).instruments, p ≤ v.ptr := by
  intro v hv
  simp only [Metrics.instruments, handleAt, List.mem_cons, List.mem_singleton,
    List.mem_nil_iff, or_false] at hv
  rcases hv with h | h | h | h | h | h <;> subst h <;> simp

theorem defaultRegister_already (valid : Desc → Bool) (c : Collector) (w w2 : World)
    (e : Error) (hreg : defaultRegister valid c w = (some e, w2)) (hAs : e.As = true) :
    w2 = w ∧ ∃ ex, ex ∈ w.registry ∧ e = .AlreadyRegisteredError ex c := by
  unfold defaultRegister at hreg
  split at hreg
  · simp only [Prod.mk.injEq, Option.some.injEq] at hreg
    rw [← hreg.1] at hAs
    simp [Error.As] at hAs
  · split at hreg
    · rename_i ex hfind
      simp only [Prod.mk.injEq, Option.some.injEq] at hreg
      exact ⟨hreg.2.symm, ex, List.mem_of_find?_eq_some hfind, hreg.1.symm⟩
    · split at hreg
      · simp only [Prod.mk.injEq, Option.some.injEq] at hreg
        rw [← hreg.1] at hAs
        simp [Error.As] at hAs
      · simp at hreg

/-- C5, as amended: when registration fails with an error in which `errors.As`
finds an `AlreadyRegisteredError`, `NewMetrics` returns the handle it has just
built; each of its six instruments is newly allocated and belongs to no
collector allocated before the call.  With the reference registry the error
names a collector of the registry as the existing one, none of the returned
instruments is one of its vectors, the registry is left as it was, and a
sample recorded in an instrument of the returned handle is not among the
samples the registry collects. -/
theorem reregistration_returns_new_handle
    (Register : Collector → World → Option Error × World)
    (app version hash date : String) (w w2 : World) (e : Error)
    (hreg : Register (handleAt w.nextPtr app version hash date).toCollector
      { w with nextPtr := w.nextPtr + 7 } = (some e, w2))
    (hAs : e.As = true) :
    NewMetrics Register app version hash date w =
      .ok (handleAt w.nextPtr app version hash date, w2) ∧
    (∀ old : Collector, (∀ v ∈ old.vecs, v.ptr < w.nextPtr) →
      ∀ v ∈ (handleAt w.nextPtr app version hash date).instruments, v ∉ old.vecs) ∧
    (∀ valid, Register = defaultRegister valid → w.allocated →
      (∃ ex, ex ∈ w.registry ∧
        e = .AlreadyRegisteredError ex (handleAt w.nextPtr app version hash date).toCollector ∧
        ∀ v ∈ (handleAt w.nextPtr app version hash date).instruments, v ∉ ex.vecs) ∧
      w2.registry = w.registry ∧
      ∀ s : Sample,
        (∃ v ∈ (handleAt w.nextPtr app version hash date).instruments, s.vec = v.ptr) →
        (w2.record s).gathered = w2.gathered) := by
  have hfresh : ∀ old : Collector, (∀ v ∈ old.vecs, v.ptr < w.nextPtr) →
      ∀ v ∈ (handleAt w.nextPtr app version hash date).instruments, v ∉ old.vecs := by
    intro old hold v hv hmem
    have h1 := handleAt_instruments_fresh w.nextPtr app version hash date v hv
    have h2 := hold v hmem
    omega
  refine ⟨?_, hfresh, ?_⟩
  · rw [NewMetrics_unfold, hreg]
    simp [hAs]
  · intro valid hR halloc
    subst hR
    obtain ⟨hw2, ex, hex, he⟩ := defaultRegister_already valid _ _ _ _ hreg hAs
    refine ⟨⟨ex, hex, he, hfresh ex (halloc ex hex).2⟩, by rw [hw2], ?_⟩
    rintro s ⟨v, hv, hsv⟩
    have h1 := handleAt_instruments_fresh w.nextPtr app version hash date v hv
    have hnot : (w2.registry.any (fun c => c.vecs.any (fun u => u.ptr = s.vec))) = false := by
      rw [hw2]
      simp only [List.any_eq_false, List.any_eq_true, decide_eq_true_eq, not_exists, not_and]
      intro c hc u hu hus
      have := (halloc c hc).2 u hu
      omega
    simp only [World.gathered, World.record, List.filter_append]
    simp [List.filter, hnot]

/-- C5 on the reference registry holding the collector of an earlier call:
the second call returns a new handle, and an `Inc` of its `handlerStatuses`
does not reach what the registry collects. -/
theorem reregistration_returns_new_handle_witness :
    NewMetrics (defaultRegister (fun _ => true)) "app" "1" "abc" "today"
        ⟨7, [(handleAt 0 "app" "1" "abc" "today").toCollector], [], [], [], 0⟩ =
      .ok (handleAt 7 "app" "1" "abc" "today",
        ⟨14, [(handleAt 0 "app" "1" "abc" "today").toCollector], [], [], [], 0⟩) ∧
    (World.record ⟨14, [(handleAt 0 "app" "1" "abc" "today").toCollector], [], [], [], 0⟩
        ⟨12, ["GET", "4xx"], 1⟩).gathered =
      World.gathered ⟨14, [(handleAt 0 "app" "1" "abc" "today").toCollector], [], [], [], 0⟩ :=
  ⟨(reregistration_returns_new_handle (defaultRegister (fun _ => true)) "app" "1" "abc" "today"
      ⟨7, [(handleAt 0 "app" "1" "abc" "today").toCollector], [], [], [], 0⟩ _ _ rfl rfl).1,
    ((reregistration_returns_new_handle (defaultRegister (fun _ => true)) "app" "1" "abc"
      "today" ⟨7, [(handleAt 0 "app" "1" "abc" "today").toCollector], [], [], [], 0⟩ _ _ rfl
      rfl).2.2 _ rfl (by unfold World.allocated; decide)).2.2 ⟨12, ["GET", "4xx"], 1⟩
      ⟨(handleAt 7 "app" "1" "abc" "today").handlerStatuses, by decide, rfl⟩⟩

/-- C5 as stated fails: `NewMetrics` is called twice with the same arguments
on a fresh process with the reference registry.  The second registration
fails with an `AlreadyRegisteredError` whose existing collector is the first
handle, and the second call returns a handle none of whose six instruments is
an instrument of the existing collector; an `Inc` of its `handlerStatuses` is
not collected by the registry. -/
theorem reregistration_counterexample :
    NewMetrics (defaultRegister (fun _ => true)) "app" "1" "abc" "today" World.init =
      .ok (handleAt 0 "app" "1" "abc" "today",
        ⟨7, [(handleAt 0 "app" "1" "abc" "today").toCollector], [], [], [], 0⟩) ∧
    defaultRegister (fun _ => true) (handleAt 7 "app" "1" "abc" "today").toCollector
        ⟨14, [(handleAt 0 "app" "1" "abc" "today").toCollector], [], [], [], 0⟩ =
      (some (.AlreadyRegisteredError (handleAt 0 "app" "1" "abc" "today").toCollector
          (handleAt 7 "app" "1" "abc" "today").toCollector),
        ⟨14, [(handleAt 0 "app" "1" "abc" "today").toCollector], [], [], [], 0⟩) ∧
    NewMetrics (defaultRegister (fun _ => true)) "app" "1" "abc" "today"
        ⟨7, [(handleAt 0 "app" "1" "abc" "today").toCollector], [], [], [], 0⟩ =
      .ok (handleAt 7 "app" "1" "abc" "today",
        ⟨14, [(handleAt 0 "app" "1" "abc" "today").toCollector], [], [], [], 0⟩) ∧
    (∀ v ∈ (handleAt 7 "app" "1" "abc" "today").instruments,
      v ∉ (handleAt 0 "app" "1" "abc" "today").toCollector.vecs) ∧
    (handleAt 7 "app" "1" "abc" "today").handlerStatuses.With
        [("method", "GET"), ("status_bucket", "4xx")] = .ok ⟨12, ["GET", "4xx"]⟩ ∧
    (Child.Inc ⟨12, ["GET", "4xx"]⟩
        ⟨14, [(handleAt 0 "app" "1" "abc" "today").toCollector], [], [], [], 0⟩).gathered = [] := by
  refine ⟨rfl, rfl, rfl, by decide, rfl, by decide⟩

/-! ### Constant labels -/

/-- C6, as amended: each of the six instruments built by `NewMetrics` carries
the same constant-label set, which consists of the three labels
version = version, hash = hash and buildTime = date; the application name is
no label, it is the prefix of the name of each instrument. -/
theorem const_labels_shared (Register : Collector → World → Option Error × World)
    (app version hash date : String) (w w1 : World) (h : Metrics)
    (hnew : NewMetrics Register app version hash date w = .ok (h, w1)) :
    (∀ v ∈ h.instruments,
      v.ConstLabels = [("version", version), ("hash", hash), ("buildTime", date)]) ∧
    h.instruments.map MetricVec.Name =
      [app ++ "_response_time_seconds", app ++ "_requests_total", app ++ "_duration_seconds",
        app ++ "_response_size_bytes", app ++ "_request_size_bytes",
        app ++ "_statuses_total"] := by
  obtain ⟨hh, -⟩ := NewMetrics_ok hnew
  subst hh
  refine ⟨?_, rfl⟩
  intro v hv
  simp only [Metrics.instruments, handleAt, List.mem_cons, List.mem_singleton,
    List.mem_nil_iff, or_false] at hv
  rcases hv with h | h | h | h | h | h <;> subst h <;> rfl

/-- C6 on a fresh process: the constant labels of `handlerStatuses`. -/
theorem const_labels_shared_witness :
    (handleAt 0 "app" "1" "abc" "today").handlerStatuses.ConstLabels =
      [("version", "1"), ("hash", "abc"), ("buildTime", "today")] :=
  (const_labels_shared (defaultRegister (fun _ => true)) "app" "1" "abc" "today" World.init
    _ _ rfl).1 _ (by decide)

/-- C6 as stated fails: for ("app", "1", "abc", "today") every instrument of
the handle has three constant labels, not four, and none of them has the
application name as its value. -/
theorem const_labels_counterexample :
    NewMetrics (defaultRegister (fun _ => true)) "app" "1" "abc" "today" World.init =
      .ok (handleAt 0 "app" "1" "abc" "today",
        ⟨7, [(handleAt 0 "app" "1" "abc" "today").toCollector], [], [], [], 0⟩) ∧
    ∀ v ∈ (handleAt 0 "app" "1" "abc" "today").instruments,
      v.ConstLabels.length = 3 ∧ v.ConstLabels.length ≠ 4 ∧
        ∀ l ∈ v.ConstLabels, l.2 ≠ "app" := by
  refine ⟨rfl, by decide⟩

end prometheusx

namespace otelx

/-! ## `otelx/jaeger.go` -/

/-- C7: when `net.SplitHostPort` fails on the configured local agent address,
and likewise when it succeeds and the construction of the exporter fails,
`SetupJaeger` returns no tracer and that error, and the process-wide state
(tracer provider, text-map propagator, remote samplers) is the state before
the call.  With the reference `net.SplitHostPort` the address
"not-a-host-port" is such an address. -/
theorem setup_jaeger_failure (lib : Lib) (t : Tracer) (tracerName : String) (g : Globals) :
    (∀ err, lib.SplitHostPort t.Config.Providers.Jaeger.LocalAgentAddress = .error err →
      SetupJaeger lib t tracerName g = (.error err, g)) ∧
    (∀ host port err,
      lib.SplitHostPort t.Config.Providers.Jaeger.LocalAgentAddress = .ok (host, port) →
      lib.jaegerNew host port = .error err →
      SetupJaeger lib t tracerName g = (.error err, g)) ∧
    (t.Config.Providers.Jaeger.LocalAgentAddress = "not-a-host-port" →
      lib.SplitHostPort = netSplitHostPort →
      SetupJaeger lib t tracerName g =
        (.error "address not-a-host-port: missing port in address", g)) := by
  refine ⟨?_, ?_, ?_⟩
  · intro err h
    simp [SetupJaeger, h]
  · intro host port err h1 h2
    simp [SetupJaeger, h1, h2]
  · intro haddr hlib
    have h : lib.SplitHostPort t.Config.Providers.Jaeger.LocalAgentAddress =
        .error "address not-a-host-port: missing port in address" := by
      rw [haddr, hlib]; rfl
    simp [SetupJaeger, h]

/-- C7 on the address "not-a-host-port", with a provider and a propagator
installed before the call. -/
theorem setup_jaeger_failure_witness :
    SetupJaeger libRef ⟨⟨"svc", ⟨⟨"not-a-host-port", ⟨"", 0.5⟩⟩⟩⟩⟩ "tracer"
        ⟨some ⟨⟨"h", "1"⟩, ⟨SchemaURL, "old"⟩, .TraceIDRatioBased 1⟩, some [.Baggage], []⟩ =
      (.error "address not-a-host-port: missing port in address",
        ⟨some ⟨⟨"h", "1"⟩, ⟨SchemaURL, "old"⟩, .TraceIDRatioBased 1⟩, some [.Baggage], []⟩) :=
  (setup_jaeger_failure libRef ⟨⟨"svc", ⟨⟨"not-a-host-port", ⟨"", 0.5⟩⟩⟩⟩⟩ "tracer"
    ⟨some ⟨⟨"h", "1"⟩, ⟨SchemaURL, "old"⟩, .TraceIDRatioBased 1⟩, some [.Baggage], []⟩).1
    _ rfl

end otelx

namespace flagx

/-! ## `flagx/flagx.go` -/

/-- C9: for each of the seven accessors, every fatal handler, command, flag
name and process state: if the typed getter of the flag set returns an error,
the accessor calls the fatal handler with the message of that error and, the
handler ending the process, the process ends there and no value is returned
(with `cmdx.Fatalf`: the message is logged and the process exits with code 1);
if the getter returns no error, the accessor returns the value of the getter
and the process state is untouched, whatever the fatal handler is. -/
theorem must_get_fatal_or_value (fatalf : FatalHandler) (cmd : Command) (name : String)
    (w : Proc) :
    ((∀ v e w1, cmd.Flags.GetBool name = (v, some e) → fatalf e w = .exited w1 →
        MustGetBool fatalf cmd name w = .exited w1) ∧
      (∀ v e, cmd.Flags.GetBool name = (v, some e) →
        MustGetBool Fatalf cmd name w = .exited ⟨w.stderr ++ [e], some 1⟩) ∧
      (∀ v, cmd.Flags.GetBool name = (v, none) → MustGetBool fatalf cmd name w = .returned v w)) ∧
    ((∀ v e w1, cmd.Flags.GetString name = (v, some e) → fatalf e w = .exited w1 →
        MustGetString fatalf cmd name w = .exited w1) ∧
      (∀ v e, cmd.Flags.GetString name = (v, some e) →
        MustGetString Fatalf cmd name w = .exited ⟨w.stderr ++ [e], some 1⟩) ∧
      (∀ v, cmd.Flags.GetString name = (v, none) → MustGetString fatalf cmd name w = .returned v w)) ∧
    ((∀ v e w1, cmd.Flags.GetDuration name = (v, some e) → fatalf e w = .exited w1 →
        MustGetDuration fatalf cmd name w = .exited w1) ∧
      (∀ v e, cmd.Flags.GetDuration name = (v, some e) →
        MustGetDuration Fatalf cmd name w = .exited ⟨w.stderr ++ [e], some 1⟩) ∧
      (∀ v, cmd.Flags.GetDuration name = (v, none) → MustGetDuration fatalf cmd name w = .returned v w)) ∧
    ((∀ v e w1, cmd.Flags.GetStringSlice name = (v, some e) → fatalf e w = .exited w1 →
        MustGetStringSlice fatalf cmd name w = .exited w1) ∧
      (∀ v e, cmd.Flags.GetStringSlice name = (v, some e) →
        MustGetStringSlice Fatalf cmd name w = .exited ⟨w.stderr ++ [e], some 1⟩) ∧
      (∀ v, cmd.Flags.GetStringSlice name = (v, none) → MustGetStringSlice fatalf cmd name w = .returned v w)) ∧
    ((∀ v e w1, cmd.Flags.GetInt name = (v, some e) → fatalf e w = .exited w1 →
        MustGetInt fatalf cmd name w = .exited w1) ∧
      (∀ v e, cmd.Flags.GetInt name = (v, some e) →
        MustGetInt Fatalf cmd name w = .exited ⟨w.stderr ++ [e], some 1⟩) ∧
      (∀ v, cmd.Flags.GetInt name = (v, none) → MustGetInt fatalf cmd name w = .returned v w)) ∧
    ((∀ v e w1, cmd.Flags.GetUint8 name = (v, some e) → fatalf e w = .exited w1 →
        MustGetUint8 fatalf cmd name w = .exited w1) ∧
      (∀ v e, cmd.Flags.GetUint8 name = (v, some e) →
        MustGetUint8 Fatalf cmd name w = .exited ⟨w.stderr ++ [e], some 1⟩) ∧
      (∀ v, cmd.Flags.GetUint8 name = (v, none) → MustGetUint8 fatalf cmd name w = .returned v w)) ∧
    ((∀ v e w1, cmd.Flags.GetUint32 name = (v, some e) → fatalf e w = .exited w1 →
        MustGetUint32 fatalf cmd name w = .exited w1) ∧
      (∀ v e, cmd.Flags.GetUint32 name = (v, some e) →
        MustGetUint32 Fatalf cmd name w = .exited ⟨w.stderr ++ [e], some 1⟩) ∧
      (∀ v, cmd.Flags.GetUint32 name = (v, none) → MustGetUint32 fatalf cmd name w = .returned v w)) := by
  refine ⟨?_, ?_, ?_, ?_, ?_, ?_, ?_⟩
  · refine ⟨?_, ?_, ?_⟩
    · intro v e w1 hg hf
      simp [MustGetBool, hg, hf]
    · intro v e hg
      simp [MustGetBool, hg, Fatalf]
    · intro v hg
      simp [MustGetBool, hg]
  · refine ⟨?_, ?_, ?_⟩
    · intro v e w1 hg hf
      simp [MustGetString, hg, hf]
    · intro v e hg
      simp [MustGetString, hg, Fatalf]
    · intro v hg
      simp [MustGetString, hg]
  · refine ⟨?_, ?_, ?_⟩
    · intro v e w1 hg hf
      simp [MustGetDuration, hg, hf]
    · intro v e hg
      simp [MustGetDuration, hg, Fatalf]
    · intro v hg
      simp [MustGetDuration, hg]
  · refine ⟨?_, ?_, ?_⟩
    · intro v e w1 hg hf
      simp [MustGetStringSlice, hg, hf]
    · intro v e hg
      simp [MustGetStringSlice, hg, Fatalf]
    · intro v hg
      simp [MustGetStringSlice, hg]
  · refine ⟨?_, ?_, ?_⟩
    · intro v e w1 hg hf
      simp [MustGetInt, hg, hf]
    · intro v e hg
      simp [MustGetInt, hg, Fatalf]
    · intro v hg
      simp [MustGetInt, hg]
  · refine ⟨?_, ?_, ?_⟩
    · intro v e w1 hg hf
      simp [MustGetUint8, hg, hf]
    · intro v e hg
      simp [MustGetUint8, hg, Fatalf]
    · intro v hg
      simp [MustGetUint8, hg]
  · refine ⟨?_, ?_, ?_⟩
    · intro v e w1 hg hf
      simp [MustGetUint32, hg, hf]
    · intro v e hg
      simp [MustGetUint32, hg, Fatalf]
    · intro v hg
      simp [MustGetUint32, hg]

/-- C9 on the reference command: the flag "name" is no bool flag, and
`MustGetBool` ends the process with the message of the getter. -/
theorem must_get_fatal_or_value_witness :
    MustGetBool Fatalf cmdRef "name" ⟨[], none⟩ =
      .exited ⟨["trying to get bool value of flag of type string"], some 1⟩ :=
  (must_get_fatal_or_value Fatalf cmdRef "name" ⟨[], none⟩).1.1 false _ _ rfl rfl

end flagx

namespace tracing

/-! ## `tracing/config.go` -/

/-- C10: `AddConfigSchema` does not panic; it is one call of the registrar's
`AddResource`, with the URL `ConfigSchemaID`, which is
"https://ory.sh/schemas/tracing.schema.json", and a reader of the bytes of the
bundled `config.schema.json`, and it returns what that call returns.  A
registrar that records its resources by URL holds, after one call, one more
resource, under that URL and with those bytes; from an empty record it holds
exactly one resource under that URL. -/
theorem add_config_schema_once {σ : Type} (bundled : Bytes) (c : Registrar σ) (s : σ) :
    AddConfigSchema bundled c s = .ok (c.AddResource ConfigSchemaID bundled s) ∧
    ConfigSchemaID = "https://ory.sh/schemas/tracing.schema.json" ∧
    (∀ verdict log, AddConfigSchema bundled (recorder verdict) log =
      .ok (verdict ConfigSchemaID bundled, log ++ [(ConfigSchemaID, bundled)])) ∧
    (∀ verdict, AddConfigSchema bundled (recorder verdict) [] =
      .ok (verdict ConfigSchemaID bundled,
        [("https://ory.sh/schemas/tracing.schema.json", bundled)])) ∧
    (∀ verdict res log, AddConfigSchema bundled (recorder verdict) [] = .ok (res, log) →
      (log.filter (fun e => e.1 = ConfigSchemaID)).length = 1 ∧
        log.lookup ConfigSchemaID = some bundled) := by
  have h : ∀ (τ : Type) (d : Registrar τ) (x : τ),
      AddConfigSchema bundled d x = .ok (d.AddResource ConfigSchemaID bundled x) := by
    intro τ d x
    simp [AddConfigSchema, ConfigSchema, FS.ReadFile, List.lookup]
  refine ⟨h _ c s, rfl, fun verdict log => h _ _ _, fun verdict => h _ _ _, ?_⟩
  intro verdict res log hres
  rw [h] at hres
  simp only [recorder, List.nil_append, Except.ok.injEq, Prod.mk.injEq] at hres
  rw [← hres.2]
  simp [List.filter, List.lookup]

/-- C10 on the bundled bytes of "{}" and a registrar that accepts everything. -/
theorem add_config_schema_once_witness :
    ([(ConfigSchemaID, ([123, 125] : Bytes))].filter (fun e => e.1 = ConfigSchemaID)).length = 1 ∧
      [(ConfigSchemaID, ([123, 125] : Bytes))].lookup ConfigSchemaID = some [123, 125] :=
  (add_config_schema_once [123, 125] (recorder (fun _ _ => none)) []).2.2.2.2
    (fun _ _ => none) none _ rfl

end tracing
